import Mathlib

/-!
Verification of the radish feature-file AST builder
(`src/radish/parser/transformer.py`, class `RadishGherkinTransformer`).

The transformer is a bottom-up (post-order) pass over a concrete syntax
tree produced by the lark grammar engine.  Each grammar rule maps to one
reduction method; the per-file mutable traversal state (feature id, step
id counter, scenario id counter, step keyword context, cached source
lines) lives on the transformer instance.  We embed that state as an
explicit `TransformerState` record and each reduction method as a pure
function threading it.  Machine strings are modelled as `String`
(keywords, names) or `List Char` (file contents, doc strings);
fallible reductions return `Except BuildError`.
-/

namespace Radish

/-- The Python-level errors raised by the transformer.  All three radish
errors are raised with **no constructor arguments** in the source
(`raise RadishStepDataTableInconsistentCellCount()` and friends), so the
embedded error type has nullary constructors.  `pythonError` models a
Python-level crash (`ValueError`/`AttributeError`) from a shape the
reductions do not expect (e.g. unpacking an empty list). -/
inductive BuildError where
  | stepDataTableInconsistentCellCount
  | scenarioOutlineExamplesInconsistentCellCount
  | firstStepMustUseFirstLevelKeyword
  | pythonError
deriving DecidableEq

instance {ε α : Type} [DecidableEq ε] [DecidableEq α] : DecidableEq (Except ε α) :=
  fun a b =>
    match a, b with
    | .ok x, .ok y =>
      if h : x = y then .isTrue (by rw [h]) else .isFalse (by intro hc; cases hc; exact h rfl)
    | .error x, .error y =>
      if h : x = y then .isTrue (by rw [h]) else .isFalse (by intro hc; cases hc; exact h rfl)
    | .ok _, .error _ => .isFalse (by intro hc; cases hc)
    | .error _, .ok _ => .isFalse (by intro hc; cases hc)

/-- A lark token: literal text together with its 1-based source line. -/
structure Token where
  text : String
  line : Nat
deriving DecidableEq

/-- `Tag(name, path, line)` from `radish.models`. -/
structure Tag where
  name : String
  path : String
  line : Nat
deriving DecidableEq

/-- A step data table: ordered rows of ordered cells. -/
abbrev DataTable := List (List String)

/-- The reduced examples table: one `dict(zip(header, row))` per data row,
modelled as an association list in header order. -/
abbrev ExamplesTable := List (List (String × String))

/-- `Step(step_id, keyword, used_keyword, text, doc_string, data_table,
path, line)`: `keyword` is the resolved context keyword, `usedKeyword`
the literal one written in the file. -/
structure Step where
  id : Nat
  keyword : String
  usedKeyword : String
  text : String
  docString : Option (List Char)
  dataTable : Option DataTable
  path : String
  line : Nat
deriving DecidableEq

/-- `Scenario(scenario_id, short_description, tags, path, line, steps)`. -/
structure Scenario where
  id : Nat
  shortDescription : String
  tags : List Tag
  path : String
  line : Nat
  steps : List Step
deriving DecidableEq

/-- `ScenarioOutline(...)`: scenario fields plus the reduced examples table. -/
structure ScenarioOutline where
  id : Nat
  shortDescription : String
  tags : List Tag
  path : String
  line : Nat
  steps : List Step
  examples : ExamplesTable
deriving DecidableEq

/-- `ScenarioLoop(...)`: scenario fields plus the iteration count. -/
structure ScenarioLoop where
  id : Nat
  shortDescription : String
  tags : List Tag
  path : String
  line : Nat
  steps : List Step
  iterations : Nat
deriving DecidableEq

/-- `Background(short_description, path, line, steps)`; line is 0 for an
anonymous background. -/
structure Background where
  shortDescription : Option String
  path : String
  line : Nat
  steps : List Step
deriving DecidableEq

/-- `True` for the characters Python `str.splitlines` treats as line
boundaries. -/
def isLineBreak (c : Char) : Bool :=
  c = '\n' || c = '\r' || c = '\x0b' || c = '\x0c' ||
  c = '\x1c' || c = '\x1d' || c = '\x1e' || c = '\x85' ||
  c = '\u2028' || c = '\u2029'

/-- Helper for `splitlinesKeep`: `acc` holds the current line reversed. -/
def splitlinesKeepAux : List Char → List Char → List (List Char)
  | [], acc => if acc.isEmpty then [] else [acc.reverse]
  | '\r' :: '\n' :: rest2, acc => (acc.reverse ++ ['\r', '\n']) :: splitlinesKeepAux rest2 []
  | c :: rest, acc =>
    if isLineBreak c then (acc.reverse ++ [c]) :: splitlinesKeepAux rest []
    else splitlinesKeepAux rest (c :: acc)

/-- Python `str.splitlines(True)` (keepends): split at every line break,
treating a CRLF pair as a single break, keeping the break characters and
dropping a trailing empty piece. -/
def splitlinesKeep (text : List Char) : List (List Char) :=
  splitlinesKeepAux text []

/-- `True` for the ASCII characters Python `str.strip()` removes.  The
keyword tokens stripped by the transformer only ever carry these. -/
def isPySpace (c : Char) : Bool :=
  c = ' ' || c = '\t' || c = '\n' || c = '\r' || c = '\x0b' || c = '\x0c'

/-- Python `str.strip()` on a list of characters. -/
def pyStrip (l : List Char) : List Char :=
  ((l.dropWhile isPySpace).reverse.dropWhile isPySpace).reverse

/-- Python `str.strip()` on a `String`. -/
def pyStripS (s : String) : String :=
  String.mk (pyStrip s.data)

/-- Space or tab, the characters `textwrap.dedent` treats as indentation. -/
def isSpaceTab (c : Char) : Bool :=
  c = ' ' || c = '\t'

/-- Python `text.split(chr(10))`-style split of a character list at every
newline, keeping empty pieces (so the result is never empty). -/
def splitNl : List Char → List (List Char)
  | [] => [[]]
  | '\n' :: rest => [] :: splitNl rest
  | c :: rest =>
    match splitNl rest with
    | [] => [[c]]
    | l :: ls => (c :: l) :: ls

/-- A line matching `textwrap._whitespace_only_re`: one or more
characters, all spaces or tabs. -/
def wsOnly (l : List Char) : Bool :=
  !l.isEmpty && l.all isSpaceTab

/-- The match of `textwrap._leading_whitespace_re` on one line: the
leading run of spaces/tabs, provided some character follows it (the
lines produced by `splitNl` contain no newline). -/
def indentOf (l : List Char) : Option (List Char) :=
  let ind := l.takeWhile isSpaceTab
  if ind.length < l.length then some ind else none

/-- Longest common leading run of two character lists. -/
def commonLead : List Char → List Char → List Char
  | x :: xs, y :: ys => if x = y then x :: commonLead xs ys else []
  | _, _ => []

/-- One iteration of the margin loop in `textwrap.dedent`. -/
def updateMargin (margin : Option (List Char)) (ind : List Char) : Option (List Char) :=
  match margin with
  | none => some ind
  | some m =>
    if m.isPrefixOf ind then some m
    else if ind.isPrefixOf m then some ind
    else some (commonLead m ind)

/-- `textwrap.dedent`: blank out whitespace-only lines, compute the
longest leading whitespace common to the remaining lines' indents, and
strip it from the front of every line that carries it.  A `none` or
empty margin leaves the (blanked) text unchanged, mirroring the
`if margin:` falsy test in the Python source. -/
def dedent (text : List Char) : List Char :=
  let lines := splitNl text
  let blanked := lines.map (fun l => if wsOnly l then [] else l)
  let indents := blanked.filterMap indentOf
  let margin := indents.foldl updateMargin none
  match margin with
  | none => List.intercalate ['\n'] blanked
  | some [] => List.intercalate ['\n'] blanked
  | some m =>
    List.intercalate ['\n'] (blanked.map (fun l => if m.isPrefixOf l then l.drop m.length else l))

/-- Python `raw.replace(chr(92) ++ chr(124), chr(124))` — drop the
backslash of every backslash-vbar escape, left to right. -/
def unescapeVbar : List Char → List Char
  | [] => []
  | '\\' :: '|' :: rest2 => '|' :: unescapeVbar rest2
  | c :: rest => c :: unescapeVbar rest

namespace RadishGherkinTransformer

/-- `FIRST_LEVEL_STEP_KEYWORDS`; the Python set is modelled as a list,
membership tests coincide. -/
def FIRST_LEVEL_STEP_KEYWORDS : List String := ["Given", "When", "Then"]

/-- `SECOND_LEVEL_STEP_KEYWORDS`. -/
def SECOND_LEVEL_STEP_KEYWORDS : List String := ["And", "But"]

/-- The per-file mutable state held on the transformer instance:
`featurefile_path`, `featurefile_contents` (the `splitlines(True)` line
cache), `feature_id`, `__step_id`, `__scenario_id`,
`__step_keyword_ctx`. -/
structure TransformerState where
  featurefilePath : String
  featurefileContents : List (List Char)
  featureId : Nat
  stepId : Nat
  scenarioId : Nat
  stepKeywordCtx : Option String
deriving DecidableEq

/-- `prepare(featurefile_path, featurefile_contents, feature_id)`: store
the path, cache the split source lines, store the feature id and reset
both id counters to 1.  The source (transformer.py lines 48-56) does
**not** touch `__step_keyword_ctx`, so it is carried over. -/
def prepare (st : TransformerState) (featurefilePath : String)
    (featurefileContents : List Char) (featureId : Nat) : TransformerState :=
  { featurefilePath := featurefilePath
    featurefileContents := splitlinesKeep featurefileContents
    featureId := featureId
    stepId := 1
    scenarioId := 1
    stepKeywordCtx := st.stepKeywordCtx }

/-- `step_doc_string(subtree)`: slice the cached lines from the first
token's line to the last token's line (1-based, inclusive), join, and
dedent.  An empty subtree would be a Python `IndexError`. -/
def step_doc_string (st : TransformerState) (subtree : List Token) :
    Except BuildError (List Char) :=
  match subtree with
  | [] => .error .pythonError
  | first :: rest =>
    let lastTok := (first :: rest).getLast (List.cons_ne_nil _ _)
    let startline := first.line - 1
    let endline := lastTok.line
    let lines := ((st.featurefileContents.drop startline).take (endline - startline)).flatten
    .ok (dedent lines)

/-- `_table_cell`: strip the raw cell value, then unescape vbars. -/
def table_cell (raw : String) : String :=
  String.mk (unescapeVbar (pyStrip raw.data))

/-- `step_data_table(subtree)`: fail when the rows do not all share one
cell count (`len(set of row lengths) > 1`), else return the rows. -/
def step_data_table (subtree : List (List String)) :
    Except BuildError (List (List String)) :=
  if ((subtree.map List.length).dedup).length > 1 then
    .error .stepDataTableInconsistentCellCount
  else
    .ok subtree

/-- `examples(subtree)`: same uniform-cell-count check over all rows
(header included), then zip each data row with the header row.
Unpacking `header, *rows` from an empty subtree is a Python
`ValueError`. -/
def examples (subtree : List (List String)) : Except BuildError ExamplesTable :=
  if ((subtree.map List.length).dedup).length > 1 then
    .error .scenarioOutlineExamplesInconsistentCellCount
  else
    match subtree with
    | [] => .error .pythonError
    | header :: rows => .ok (rows.map (fun row => header.zip row))

/-- `step(subtree)` with `subtree = [keyword, text, (doc_string,
data_table)]`.  Strips the keyword token; with no keyword context a
non-first-level keyword raises `FirstStepMustUseFirstLevelKeyword`,
otherwise the context is set/updated by first-level keywords and
inherited by the rest.  Builds the `Step` with the current step id and
increments the counter. -/
def step (st : TransformerState) (keywordTok : Token) (text : String)
    (docString : Option (List Char)) (dataTable : Option DataTable) :
    Except BuildError (TransformerState × Step) :=
  let keywordLine := keywordTok.line
  let keyword := pyStripS keywordTok.text
  match st.stepKeywordCtx with
  | none =>
    if keyword ∉ FIRST_LEVEL_STEP_KEYWORDS then
      .error .firstStepMustUseFirstLevelKeyword
    else
      .ok ({ st with stepId := st.stepId + 1, stepKeywordCtx := some keyword },
           { id := st.stepId, keyword := keyword, usedKeyword := keyword,
             text := text, docString := docString, dataTable := dataTable,
             path := st.featurefilePath, line := keywordLine })
  | some ctx =>
    let ctx2 :=
      if keyword ∈ FIRST_LEVEL_STEP_KEYWORDS then
        if keyword ≠ ctx then keyword else ctx
      else ctx
    .ok ({ st with stepId := st.stepId + 1, stepKeywordCtx := some ctx2 },
         { id := st.stepId, keyword := ctx2, usedKeyword := keyword,
           text := text, docString := docString, dataTable := dataTable,
           path := st.featurefilePath, line := keywordLine })

/-- A transformed child of a scenario-like subtree: leading `Tag`s, a
short-description token, `Step`s, and for outlines/loops the trailing
reduced examples table or iteration count. -/
inductive PNode where
  | tag (t : Radish.Tag)
  | tok (t : Token)
  | step (s : Radish.Step)
  | examples (e : ExamplesTable)
  | iterations (n : Nat)
deriving DecidableEq

/-- `isinstance(node, Tag)`. -/
def PNode.isTag : PNode → Bool
  | .tag _ => true
  | _ => false

/-- Project a `Tag` child. -/
def PNode.asTag : PNode → Option Radish.Tag
  | .tag t => some t
  | _ => none

/-- `isinstance(node, Step)`. -/
def PNode.isStep : PNode → Bool
  | .step _ => true
  | _ => false

/-- Project a `Step` child. -/
def PNode.asStep : PNode → Option Radish.Step
  | .step s => some s
  | _ => none

/-- `scenario(subtree)`: split the leading `Tag`s with `takewhile`, take
the next child as the short-description token and the rest as the
`Step`s (the grammar only ever delivers `Step`s there).  Builds the
`Scenario` with the current scenario id, then advances the scenario
counter by 1, resets the step counter to 1 and clears the step keyword
context.  A missing/non-token short description would be a Python-level
crash. -/
def scenario (st : TransformerState) (subtree : List PNode) :
    Except BuildError (TransformerState × Radish.Scenario) :=
  let tagNodes := subtree.takeWhile PNode.isTag
  let tags := tagNodes.filterMap PNode.asTag
  match subtree.drop tagNodes.length with
  | .tok d :: rest =>
    let steps := rest.filterMap PNode.asStep
    .ok ({ st with scenarioId := st.scenarioId + 1, stepId := 1, stepKeywordCtx := none },
         { id := st.scenarioId, shortDescription := d.text, tags := tags,
           path := st.featurefilePath, line := d.line, steps := steps })
  | _ => .error .pythonError

/-- `scenario_outline(subtree)`: split leading `Tag`s, then the
short-description token, then the contiguous run of `Step`s
(`takewhile`), and take the next child as the reduced examples table.
Builds the `ScenarioOutline` with the current scenario id, then advances
the scenario counter by `1 + len(examples_table)` and resets the step
counter to 1.  The step keyword context is **not** cleared (source
lines 194-196 touch only the two counters). -/
def scenario_outline (st : TransformerState) (subtree : List PNode) :
    Except BuildError (TransformerState × Radish.ScenarioOutline) :=
  let tagNodes := subtree.takeWhile PNode.isTag
  let tags := tagNodes.filterMap PNode.asTag
  match subtree.drop tagNodes.length with
  | .tok d :: rest =>
    let stepNodes := rest.takeWhile PNode.isStep
    let steps := stepNodes.filterMap PNode.asStep
    match rest.drop stepNodes.length with
    | .examples e :: _ =>
      .ok ({ st with scenarioId := st.scenarioId + 1 + e.length, stepId := 1 },
           { id := st.scenarioId, shortDescription := d.text, tags := tags,
             path := st.featurefilePath, line := d.line, steps := steps, examples := e })
    | _ => .error .pythonError
  | _ => .error .pythonError

/-- `scenario_loop(subtree)`: like `scenario_outline` but the trailing
child is the reduced iteration count; the scenario counter advances by
`1 + iterations`, the step counter resets to 1, and the step keyword
context is again **not** cleared. -/
def scenario_loop (st : TransformerState) (subtree : List PNode) :
    Except BuildError (TransformerState × Radish.ScenarioLoop) :=
  let tagNodes := subtree.takeWhile PNode.isTag
  let tags := tagNodes.filterMap PNode.asTag
  match subtree.drop tagNodes.length with
  | .tok d :: rest =>
    let stepNodes := rest.takeWhile PNode.isStep
    let steps := stepNodes.filterMap PNode.asStep
    match rest.drop stepNodes.length with
    | .iterations n :: _ =>
      .ok ({ st with scenarioId := st.scenarioId + 1 + n, stepId := 1 },
           { id := st.scenarioId, shortDescription := d.text, tags := tags,
             path := st.featurefilePath, line := d.line, steps := steps, iterations := n })
    | _ => .error .pythonError
  | _ => .error .pythonError

/-- `background(subtree)`: empty subtree gives an anonymous background
with no steps; a leading `Step` gives an anonymous background whose
steps are the whole subtree; otherwise the first child is the
short-description token and the rest are the steps.  The line defaults
to 0 when anonymous.  No counter or context on the transformer state is
touched (source lines 228-245). -/
def background (st : TransformerState) (subtree : List PNode) :
    Except BuildError (TransformerState × Radish.Background) :=
  match subtree with
  | [] =>
    .ok (st, { shortDescription := none, path := st.featurefilePath, line := 0, steps := [] })
  | .step s :: rest =>
    .ok (st, { shortDescription := none, path := st.featurefilePath, line := 0,
               steps := (PNode.step s :: rest).filterMap PNode.asStep })
  | .tok d :: rest =>
    .ok (st, { shortDescription := some d.text, path := st.featurefilePath, line := d.line,
               steps := rest.filterMap PNode.asStep })
  | _ => .error .pythonError

/-- A scenario-like child of the feature body, as seen by
`_expand_background_and_scenarios`: a `Background`, one of the three
scenario variants, or an explicit `Rule` node (modelled by its
description, enough to know it is not a `Background`). -/
inductive FNode where
  | background (b : Radish.Background)
  | scenario (s : Radish.Scenario)
  | scenarioOutline (s : Radish.ScenarioOutline)
  | scenarioLoop (s : Radish.ScenarioLoop)
  | rule (shortDescription : String)
deriving DecidableEq

/-- `isinstance(node, Background)`. -/
def FNode.isBackground : FNode → Bool
  | .background _ => true
  | _ => false

/-- `_expand_background_and_scenarios(scenarios)`: the argument is
always the list of scenario-like children (`description, *scenarios =
subtree` in `feature_body`), so the `isinstance(scenarios, Background)`
and `isinstance(scenarios, Scenario)` tests on the list object itself
are never true; the effective behaviour is the head check: a leading
`Background` is popped off and returned, otherwise there is none. -/
def expand_background_and_scenarios (scenarios : List FNode) :
    Option Radish.Background × List FNode :=
  match scenarios with
  | [] => (none, [])
  | first :: rest =>
    match first with
    | .background b => (some b, rest)
    | _ => (none, first :: rest)

end RadishGherkinTransformer

/-! ## Traversal traces

The lark transformer visits the concrete syntax tree bottom-up: the
`Step`s of a scenario/background are reduced (in source order) before
the scenario/background node itself, which receives them as children.
A `Trace` records that reduction order for the scenario-like part of
one feature file; `runTrace` replays it against the embedded reduction
functions, collecting the steps produced since the last scenario-like
boundary as the children handed to that boundary's reduction. -/

open RadishGherkinTransformer

/-- One reduction event in traversal order. -/
inductive Event where
  | step (keywordTok : Token) (text : String)
      (docString : Option (List Char)) (dataTable : Option DataTable)
  | scenario (tags : List Tag) (desc : Token)
  | scenarioOutline (tags : List Tag) (desc : Token) (examples : ExamplesTable)
  | scenarioLoop (tags : List Tag) (desc : Token) (iterations : Nat)
  | background (desc : Option Token)

/-- `True` only for a `background` reduction event. -/
def Event.isBackground : Event → Bool
  | .background _ => true
  | _ => false

/-- A scenario-like object produced during the traversal. -/
inductive Out where
  | scn (s : Scenario)
  | outline (s : ScenarioOutline)
  | loop (s : ScenarioLoop)
  | bg (b : Background)
deriving DecidableEq

/-- The steps owned by a produced scenario-like object. -/
def Out.steps : Out → List Step
  | .scn s => s.steps
  | .outline s => s.steps
  | .loop s => s.steps
  | .bg b => b.steps

/-- Transformer state plus the steps reduced since the last
scenario-like boundary (the children lark will hand to that boundary's
reduction). -/
structure RunState where
  ts : TransformerState
  pending : List Step
deriving DecidableEq

/-- Replay one reduction event. -/
def runEvent (rs : RunState) : Event → Except BuildError (RunState × List Out)
  | .step kw text ds dt =>
    match RadishGherkinTransformer.step rs.ts kw text ds dt with
    | .error e => .error e
    | .ok (ts2, s) => .ok ({ ts := ts2, pending := rs.pending ++ [s] }, [])
  | .scenario tags d =>
    match RadishGherkinTransformer.scenario rs.ts
        (tags.map PNode.tag ++ PNode.tok d :: rs.pending.map PNode.step) with
    | .error e => .error e
    | .ok (ts2, sc) => .ok ({ ts := ts2, pending := [] }, [Out.scn sc])
  | .scenarioOutline tags d ex =>
    match RadishGherkinTransformer.scenario_outline rs.ts
        (tags.map PNode.tag ++ PNode.tok d :: (rs.pending.map PNode.step ++ [PNode.examples ex])) with
    | .error e => .error e
    | .ok (ts2, so) => .ok ({ ts := ts2, pending := [] }, [Out.outline so])
  | .scenarioLoop tags d n =>
    match RadishGherkinTransformer.scenario_loop rs.ts
        (tags.map PNode.tag ++ PNode.tok d :: (rs.pending.map PNode.step ++ [PNode.iterations n])) with
    | .error e => .error e
    | .ok (ts2, sl) => .ok ({ ts := ts2, pending := [] }, [Out.loop sl])
  | .background d =>
    match RadishGherkinTransformer.background rs.ts
        ((d.map PNode.tok).toList ++ rs.pending.map PNode.step) with
    | .error e => .error e
    | .ok (ts2, b) => .ok ({ ts := ts2, pending := [] }, [Out.bg b])

/-- Replay a whole trace, concatenating the produced objects. -/
def runTrace (rs : RunState) : List Event → Except BuildError (RunState × List Out)
  | [] => .ok (rs, [])
  | e :: es =>
    match runEvent rs e with
    | .error err => .error err
    | .ok (rs2, outs) =>
      match runTrace rs2 es with
      | .error err => .error err
      | .ok (rs3, outs2) => .ok (rs3, outs ++ outs2)

/-- The ids of a list of steps, in order. -/
def StepsIds (steps : List Step) : List Nat :=
  steps.map Step.id

/-- The pending steps carry consecutive ids ending just below the
current step-id counter. -/
def Consecutive (rs : RunState) : Prop :=
  ∃ a, rs.ts.stepId = a + rs.pending.length ∧
    StepsIds rs.pending = List.range' a rs.pending.length

/-- The pending steps carry the ids `1, 2, ...` and the counter sits
just past them. -/
def FromOne (rs : RunState) : Prop :=
  rs.ts.stepId = 1 + rs.pending.length ∧
    StepsIds rs.pending = List.range' 1 rs.pending.length

/-- The longest common leading run of a list of character lists (`none`
for the empty list). -/
def commonOfAll : List (List Char) → Option (List Char)
  | [] => none
  | x :: xs => some (xs.foldl commonLead x)

/-- The doc-string dedent exactly as the claim words it: the minimum
leading whitespace common to all non-empty lines, removed from every
line, and nothing else changed. -/
def claimedDedent (text : List Char) : List Char :=
  let lines := splitNl text
  match commonOfAll ((lines.filter (fun l => !l.isEmpty)).map (fun l => l.takeWhile isSpaceTab)) with
  | none => text
  | some m =>
    List.intercalate ['\n'] (lines.map (fun l => if m.isPrefixOf l then l.drop m.length else l))

/-- The dedent the code actually performs, worded independently of the
implementation: lines consisting solely of spaces/tabs are normalized to
empty, and the longest leading run of spaces/tabs common to all lines
containing a character other than space or tab is removed from every
line carrying it. -/
def amendedDedent (text : List Char) : List Char :=
  let lines := splitNl text
  let blanked := lines.map (fun l => if wsOnly l then [] else l)
  match commonOfAll ((lines.filter (fun l => l.any (fun c => !isSpaceTab c))).map
      (fun l => l.takeWhile isSpaceTab)) with
  | none => List.intercalate ['\n'] blanked
  | some m =>
    List.intercalate ['\n'] (blanked.map (fun l => if m.isPrefixOf l then l.drop m.length else l))

/-- The doc-string reduction as the claim describes it: slice the cached
lines from the first token's line to the last token's line inclusive,
concatenate, and apply `claimedDedent`. -/
def claimedDocString (st : TransformerState) (subtree : List Token) : Option (List Char) :=
  match subtree with
  | [] => none
  | first :: rest =>
    let lastTok := (first :: rest).getLast (List.cons_ne_nil _ _)
    some (claimedDedent
      (((st.featurefileContents.drop (first.line - 1)).take
          (lastTok.line - (first.line - 1))).flatten))

/-- The doc-string reduction as amended: same slice, `amendedDedent`. -/
def amendedDocString (st : TransformerState) (subtree : List Token) : Option (List Char) :=
  match subtree with
  | [] => none
  | first :: rest =>
    let lastTok := (first :: rest).getLast (List.cons_ne_nil _ _)
    some (amendedDedent
      (((st.featurefileContents.drop (first.line - 1)).take
          (lastTok.line - (first.line - 1))).flatten))

/-! ## Concrete fixtures -/

/-- A just-constructed transformer: `__init__` sets the id fields and
the keyword context to `None`; the numeric placeholders here are never
read before `prepare` assigns them. -/
def freshTransformer : TransformerState :=
  { featurefilePath := "", featurefileContents := [], featureId := 0,
    stepId := 0, scenarioId := 0, stepKeywordCtx := none }

/-- A transformer carrying leftover state from an earlier file,
including a set step-keyword context. -/
def staleTransformer : TransformerState :=
  { featurefilePath := "other.feature", featurefileContents := [], featureId := 7,
    stepId := 5, scenarioId := 3, stepKeywordCtx := some "Given" }

/-- A fresh transformer right after `prepare` on an empty demo file. -/
def demoState : TransformerState :=
  prepare freshTransformer "demo.feature" [] 1

/-- The run state at the start of the demo file's traversal. -/
def demoRun : RunState :=
  { ts := demoState, pending := [] }

/-- A transformer state whose line cache holds a three-line indented
block (four spaces around a whitespace-only line of six spaces). -/
def docState : TransformerState :=
  { featurefilePath := "doc.feature",
    featurefileContents := ["    a\n".data, "      \n".data, "    b\n".data],
    featureId := 1, stepId := 1, scenarioId := 1, stepKeywordCtx := none }

/-- A one-step demo trace: a single `Given` step followed by its
scenario reduction. -/
def demoTrace : List Event :=
  [Event.step { text := "Given", line := 2 } "a precondition" none none,
   Event.scenario [] { text := "Simple", line := 1 }]

/-- The step the demo trace produces. -/
def demoStep : Step :=
  { id := 1, keyword := "Given", usedKeyword := "Given", text := "a precondition",
    docString := none, dataTable := none, path := "demo.feature", line := 2 }

/-- The scenario the demo trace produces. -/
def demoOut : Out :=
  Out.scn { id := 1, shortDescription := "Simple", tags := [], path := "demo.feature",
            line := 1, steps := [demoStep] }

/-- The run state after the demo trace. -/
def demoFinal : RunState :=
  { ts := { featurefilePath := "demo.feature", featurefileContents := [], featureId := 1,
            stepId := 1, scenarioId := 2, stepKeywordCtx := none },
    pending := [] }

/-- A trace whose third step opens the scenario after a Scenario
Outline with a second-level keyword. -/
def outlineTrace : List Event :=
  [Event.step { text := "Given", line := 2 } "w" none none,
   Event.scenarioOutline [] { text := "SO", line := 1 } [[("n", "1")]],
   Event.step { text := "And", line := 6 } "x" none none]

/-! ## Shape lemmas for well-formed subtrees -/

theorem takeWhile_isTag_append (tags : List Tag) (x : PNode) (rest : List PNode)
    (hx : x.isTag = false) :
    (tags.map PNode.tag ++ x :: rest).takeWhile PNode.isTag = tags.map PNode.tag := by
  induction tags with
  | nil => simp [List.takeWhile, hx]
  | cons t ts ih => simpa [List.takeWhile, PNode.isTag] using ih

theorem takeWhile_isStep_append (steps : List Step) (x : PNode) (rest : List PNode)
    (hx : x.isStep = false) :
    (steps.map PNode.step ++ x :: rest).takeWhile PNode.isStep = steps.map PNode.step := by
  induction steps with
  | nil => simp [List.takeWhile, hx]
  | cons s ss ih => simpa [List.takeWhile, PNode.isStep] using ih

theorem filterMap_asTag_map (tags : List Tag) :
    (tags.map PNode.tag).filterMap PNode.asTag = tags := by
  induction tags with
  | nil => rfl
  | cons t ts ih => simp [List.filterMap, PNode.asTag, ih]

theorem filterMap_asStep_map (steps : List Step) :
    (steps.map PNode.step).filterMap PNode.asStep = steps := by
  induction steps with
  | nil => rfl
  | cons s ss ih => simp [List.filterMap, PNode.asStep, ih]

/-- `scenario` on the subtree shape the grammar delivers. -/
theorem scenario_eq (st : TransformerState) (tags : List Tag) (d : Token)
    (steps : List Step) :
    RadishGherkinTransformer.scenario st
        (tags.map PNode.tag ++ PNode.tok d :: steps.map PNode.step) =
      .ok ({ st with scenarioId := st.scenarioId + 1, stepId := 1, stepKeywordCtx := none },
           { id := st.scenarioId, shortDescription := d.text, tags := tags,
             path := st.featurefilePath, line := d.line, steps := steps }) := by
  simp only [RadishGherkinTransformer.scenario,
    takeWhile_isTag_append tags (PNode.tok d) (steps.map PNode.step) rfl,
    List.drop_left, filterMap_asTag_map, filterMap_asStep_map]

/-- `scenario_outline` on the subtree shape the grammar delivers. -/
theorem scenario_outline_eq (st : TransformerState) (tags : List Tag) (d : Token)
    (steps : List Step) (ex : ExamplesTable) :
    RadishGherkinTransformer.scenario_outline st
        (tags.map PNode.tag ++ PNode.tok d :: (steps.map PNode.step ++ [PNode.examples ex])) =
      .ok ({ st with scenarioId := st.scenarioId + 1 + ex.length, stepId := 1 },
           { id := st.scenarioId, shortDescription := d.text, tags := tags,
             path := st.featurefilePath, line := d.line, steps := steps, examples := ex }) := by
  simp only [RadishGherkinTransformer.scenario_outline,
    takeWhile_isTag_append tags (PNode.tok d) (steps.map PNode.step ++ [PNode.examples ex]) rfl,
    List.drop_left, filterMap_asTag_map,
    takeWhile_isStep_append steps (PNode.examples ex) [] rfl,
    filterMap_asStep_map]

/-- `scenario_loop` on the subtree shape the grammar delivers. -/
theorem scenario_loop_eq (st : TransformerState) (tags : List Tag) (d : Token)
    (steps : List Step) (n : Nat) :
    RadishGherkinTransformer.scenario_loop st
        (tags.map PNode.tag ++ PNode.tok d :: (steps.map PNode.step ++ [PNode.iterations n])) =
      .ok ({ st with scenarioId := st.scenarioId + 1 + n, stepId := 1 },
           { id := st.scenarioId, shortDescription := d.text, tags := tags,
             path := st.featurefilePath, line := d.line, steps := steps, iterations := n }) := by
  simp only [RadishGherkinTransformer.scenario_loop,
    takeWhile_isTag_append tags (PNode.tok d) (steps.map PNode.step ++ [PNode.iterations n]) rfl,
    List.drop_left, filterMap_asTag_map,
    takeWhile_isStep_append steps (PNode.iterations n) [] rfl,
    filterMap_asStep_map]

/-- `background` on the subtree shapes the grammar delivers. -/
theorem background_eq (st : TransformerState) (d : Option Token) (steps : List Step) :
    RadishGherkinTransformer.background st
        ((d.map PNode.tok).toList ++ steps.map PNode.step) =
      .ok (st, { shortDescription := d.map Token.text, path := st.featurefilePath,
                 line := (d.map Token.line).getD 0, steps := steps }) := by
  cases d with
  | none =>
    cases steps with
    | nil => rfl
    | cons s ss =>
      show RadishGherkinTransformer.background st (PNode.step s :: ss.map PNode.step) = _
      simp only [RadishGherkinTransformer.background]
      rw [show PNode.step s :: ss.map PNode.step = (s :: ss).map PNode.step from rfl,
          filterMap_asStep_map]
      rfl
  | some t =>
    show RadishGherkinTransformer.background st (PNode.tok t :: steps.map PNode.step) = _
    simp only [RadishGherkinTransformer.background, filterMap_asStep_map]
    rfl

/-- `step` with no keyword context and a first-level keyword. -/
theorem step_eq_of_none_of_mem (st : TransformerState) (kw : Token) (text : String)
    (ds : Option (List Char)) (dt : Option DataTable)
    (hctx : st.stepKeywordCtx = none)
    (hk : pyStripS kw.text ∈ FIRST_LEVEL_STEP_KEYWORDS) :
    RadishGherkinTransformer.step st kw text ds dt =
      .ok ({ st with stepId := st.stepId + 1, stepKeywordCtx := some (pyStripS kw.text) },
           { id := st.stepId, keyword := pyStripS kw.text, usedKeyword := pyStripS kw.text,
             text := text, docString := ds, dataTable := dt,
             path := st.featurefilePath, line := kw.line }) := by
  unfold RadishGherkinTransformer.step
  rw [hctx]
  simp [hk]

/-- `step` with no keyword context and a non-first-level keyword fails. -/
theorem step_eq_of_none_of_notMem (st : TransformerState) (kw : Token) (text : String)
    (ds : Option (List Char)) (dt : Option DataTable)
    (hctx : st.stepKeywordCtx = none)
    (hk : pyStripS kw.text ∉ FIRST_LEVEL_STEP_KEYWORDS) :
    RadishGherkinTransformer.step st kw text ds dt =
      .error .firstStepMustUseFirstLevelKeyword := by
  unfold RadishGherkinTransformer.step
  rw [hctx]
  simp [hk]

/-- `step` with a keyword context set: a first-level keyword becomes the
new context, anything else inherits the old one. -/
theorem step_eq_of_some (st : TransformerState) (kw : Token) (text : String)
    (ds : Option (List Char)) (dt : Option DataTable) (c : String)
    (hctx : st.stepKeywordCtx = some c) :
    RadishGherkinTransformer.step st kw text ds dt =
      .ok ({ st with
               stepId := st.stepId + 1,
               stepKeywordCtx :=
                 some (if pyStripS kw.text ∈ FIRST_LEVEL_STEP_KEYWORDS then pyStripS kw.text else c) },
           { id := st.stepId,
             keyword := if pyStripS kw.text ∈ FIRST_LEVEL_STEP_KEYWORDS then pyStripS kw.text else c,
             usedKeyword := pyStripS kw.text,
             text := text, docString := ds, dataTable := dt,
             path := st.featurefilePath, line := kw.line }) := by
  unfold RadishGherkinTransformer.step
  rw [hctx]
  by_cases hk : pyStripS kw.text ∈ FIRST_LEVEL_STEP_KEYWORDS
  · by_cases he : pyStripS kw.text = c
    · simp [hk, he]
    · simp [hk, he]
  · simp [hk]

/-- `runEvent` on a scenario reduction. -/
theorem runEvent_scenario (rs : RunState) (tags : List Tag) (d : Token) :
    runEvent rs (.scenario tags d) =
      .ok ({ ts := { rs.ts with
                       scenarioId := rs.ts.scenarioId + 1, stepId := 1,
                       stepKeywordCtx := none },
             pending := [] },
           [Out.scn { id := rs.ts.scenarioId, shortDescription := d.text, tags := tags,
                      path := rs.ts.featurefilePath, line := d.line, steps := rs.pending }]) := by
  simp only [runEvent, scenario_eq]

/-- `runEvent` on a scenario-outline reduction. -/
theorem runEvent_scenarioOutline (rs : RunState) (tags : List Tag) (d : Token)
    (ex : ExamplesTable) :
    runEvent rs (.scenarioOutline tags d ex) =
      .ok ({ ts := { rs.ts with scenarioId := rs.ts.scenarioId + 1 + ex.length, stepId := 1 },
             pending := [] },
           [Out.outline { id := rs.ts.scenarioId, shortDescription := d.text, tags := tags,
                          path := rs.ts.featurefilePath, line := d.line, steps := rs.pending,
                          examples := ex }]) := by
  simp only [runEvent, scenario_outline_eq]

/-- `runEvent` on a scenario-loop reduction. -/
theorem runEvent_scenarioLoop (rs : RunState) (tags : List Tag) (d : Token) (n : Nat) :
    runEvent rs (.scenarioLoop tags d n) =
      .ok ({ ts := { rs.ts with scenarioId := rs.ts.scenarioId + 1 + n, stepId := 1 },
             pending := [] },
           [Out.loop { id := rs.ts.scenarioId, shortDescription := d.text, tags := tags,
                       path := rs.ts.featurefilePath, line := d.line, steps := rs.pending,
                       iterations := n }]) := by
  simp only [runEvent, scenario_loop_eq]

/-- `runEvent` on a background reduction: the transformer state is
returned untouched. -/
theorem runEvent_background (rs : RunState) (d : Option Token) :
    runEvent rs (.background d) =
      .ok ({ ts := rs.ts, pending := [] },
           [Out.bg { shortDescription := d.map Token.text, path := rs.ts.featurefilePath,
                     line := (d.map Token.line).getD 0, steps := rs.pending }]) := by
  simp only [runEvent, background_eq]

/-- On success, `step` hands out the current step id and increments the
counter; nothing else of the numeric state moves. -/
theorem step_ok_ids (st : TransformerState) (kw : Token) (text : String)
    (ds : Option (List Char)) (dt : Option DataTable) (ts2 : TransformerState) (s : Step)
    (h : RadishGherkinTransformer.step st kw text ds dt = .ok (ts2, s)) :
    s.id = st.stepId ∧ ts2.stepId = st.stepId + 1 ∧ ts2.scenarioId = st.scenarioId := by
  cases hctx : st.stepKeywordCtx with
  | none =>
    by_cases hk : pyStripS kw.text ∈ FIRST_LEVEL_STEP_KEYWORDS
    · rw [step_eq_of_none_of_mem st kw text ds dt hctx hk] at h
      injection h with h1
      injection h1 with h2 h3
      rw [← h2, ← h3]
      exact ⟨rfl, rfl, rfl⟩
    · rw [step_eq_of_none_of_notMem st kw text ds dt hctx hk] at h
      simp at h
  | some c =>
    rw [step_eq_of_some st kw text ds dt c hctx] at h
    injection h with h1
    injection h1 with h2 h3
    rw [← h2, ← h3]
    exact ⟨rfl, rfl, rfl⟩

/-- A step reduction fails exactly when the keyword context is unset and
the stripped literal keyword is not first-level; the error is always the
bare `FirstStepMustUseFirstLevelKeyword`. -/
theorem step_error_iff (st : TransformerState) (kw : Token) (text : String)
    (ds : Option (List Char)) (dt : Option DataTable) (e : BuildError) :
    RadishGherkinTransformer.step st kw text ds dt = .error e ↔
      (st.stepKeywordCtx = none ∧ pyStripS kw.text ∉ FIRST_LEVEL_STEP_KEYWORDS ∧
        e = .firstStepMustUseFirstLevelKeyword) := by
  constructor
  · intro h
    cases hctx : st.stepKeywordCtx with
    | none =>
      by_cases hk : pyStripS kw.text ∈ FIRST_LEVEL_STEP_KEYWORDS
      · rw [step_eq_of_none_of_mem st kw text ds dt hctx hk] at h
        simp at h
      · rw [step_eq_of_none_of_notMem st kw text ds dt hctx hk] at h
        injection h with h1
        exact ⟨rfl, hk, h1.symm⟩
    | some c =>
      rw [step_eq_of_some st kw text ds dt c hctx] at h
      simp at h
  · rintro ⟨hctx, hk, he⟩
    rw [step_eq_of_none_of_notMem st kw text ds dt hctx hk, he]

/-- Replaying a step event appends one step carrying the current id and
bumps the counter. -/
theorem runEvent_step_ok (rs : RunState) (kw : Token) (text : String)
    (ds : Option (List Char)) (dt : Option DataTable) (rs2 : RunState) (outs : List Out)
    (h : runEvent rs (.step kw text ds dt) = .ok (rs2, outs)) :
    outs = [] ∧ ∃ s : Step, s.id = rs.ts.stepId ∧ rs2.pending = rs.pending ++ [s] ∧
      rs2.ts.stepId = rs.ts.stepId + 1 := by
  cases hs : RadishGherkinTransformer.step rs.ts kw text ds dt with
  | error e =>
    simp only [runEvent, hs] at h
    simp at h
  | ok p =>
    obtain ⟨ts2, s⟩ := p
    simp only [runEvent, hs] at h
    obtain ⟨hid, hstep, _⟩ := step_ok_ids rs.ts kw text ds dt ts2 s hs
    injection h with h1
    injection h1 with h2 h3
    rw [← h2, ← h3]
    exact ⟨rfl, s, hid, rfl, hstep⟩

/-- Replaying any event preserves `Consecutive`, and every scenario-like
object it produces owns a consecutive run of step ids. -/
theorem runEvent_consecutive (rs : RunState) (e : Event) (rs2 : RunState) (outs : List Out)
    (h : runEvent rs e = .ok (rs2, outs)) (hc : Consecutive rs) :
    Consecutive rs2 ∧ ∀ o ∈ outs, ∃ a, StepsIds o.steps = List.range' a o.steps.length := by
  obtain ⟨a, ha, hids⟩ := hc
  cases e with
  | step kw text ds dt =>
    obtain ⟨houts, s, hid, hpend, hstep⟩ := runEvent_step_ok rs kw text ds dt rs2 outs h
    refine ⟨⟨a, ?_, ?_⟩, ?_⟩
    · rw [hstep, hpend, ha]
      simp [Nat.add_assoc]
    · rw [hpend]
      show (rs.pending ++ [s]).map Step.id = _
      rw [List.map_append, List.length_append]
      show StepsIds rs.pending ++ [s.id] = _
      rw [hids, hid, ha]
      simp [List.range'_concat]
    · rw [houts]
      intro o ho
      cases ho
  | scenario tags d =>
    rw [runEvent_scenario rs tags d] at h
    injection h with h1
    injection h1 with h2 h3
    rw [← h2, ← h3]
    refine ⟨⟨1, by simp [StepsIds], by simp [StepsIds]⟩, ?_⟩
    intro o ho
    rw [List.mem_singleton] at ho
    exact ⟨a, by rw [ho]; simpa using hids⟩
  | scenarioOutline tags d ex =>
    rw [runEvent_scenarioOutline rs tags d ex] at h
    injection h with h1
    injection h1 with h2 h3
    rw [← h2, ← h3]
    refine ⟨⟨1, by simp [StepsIds], by simp [StepsIds]⟩, ?_⟩
    intro o ho
    rw [List.mem_singleton] at ho
    exact ⟨a, by rw [ho]; simpa using hids⟩
  | scenarioLoop tags d n =>
    rw [runEvent_scenarioLoop rs tags d n] at h
    injection h with h1
    injection h1 with h2 h3
    rw [← h2, ← h3]
    refine ⟨⟨1, by simp [StepsIds], by simp [StepsIds]⟩, ?_⟩
    intro o ho
    rw [List.mem_singleton] at ho
    exact ⟨a, by rw [ho]; simpa using hids⟩
  | background d =>
    rw [runEvent_background rs d] at h
    injection h with h1
    injection h1 with h2 h3
    rw [← h2, ← h3]
    refine ⟨⟨rs.ts.stepId, by simp [StepsIds], by simp [StepsIds]⟩, ?_⟩
    intro o ho
    rw [List.mem_singleton] at ho
    exact ⟨a, by rw [ho]; simpa using hids⟩

/-- Replaying a whole trace from a `Consecutive` state only ever emits
scenario-like objects whose step ids are consecutive. -/
theorem runTrace_consecutive (tr : List Event) :
    ∀ rs rs2 outs, Consecutive rs → runTrace rs tr = .ok (rs2, outs) →
      ∀ o ∈ outs, ∃ a, StepsIds o.steps = List.range' a o.steps.length := by
  induction tr with
  | nil =>
    intro rs rs2 outs _ h o ho
    simp only [runTrace] at h
    injection h with h1
    injection h1 with h2 h3
    rw [← h3] at ho
    cases ho
  | cons e es ih =>
    intro rs rs2 outs hc h o ho
    cases he : runEvent rs e with
    | error err =>
      simp only [runTrace, he] at h
      simp at h
    | ok p =>
      obtain ⟨rsm, outs1⟩ := p
      cases ht : runTrace rsm es with
      | error err =>
        simp only [runTrace, he, ht] at h
        simp at h
      | ok q =>
        obtain ⟨rsf, outs2⟩ := q
        simp only [runTrace, he, ht] at h
        obtain ⟨hcm, h1⟩ := runEvent_consecutive rs e rsm outs1 he hc
        injection h with hh
        injection hh with hh2 hh3
        rw [← hh3] at ho
        rcases List.mem_append.mp ho with hmem | hmem
        · exact h1 o hmem
        · exact ih rsm rsf outs2 hcm ht o hmem

/-- Replaying a non-background event preserves `FromOne`; the produced
object's steps are numbered from 1. -/
theorem runEvent_fromOne (rs : RunState) (e : Event) (rs2 : RunState) (outs : List Out)
    (h : runEvent rs e = .ok (rs2, outs)) (h1 : FromOne rs) (hb : e.isBackground = false) :
    FromOne rs2 ∧ ∀ o ∈ outs, StepsIds o.steps = List.range' 1 o.steps.length := by
  obtain ⟨ha, hids⟩ := h1
  cases e with
  | step kw text ds dt =>
    obtain ⟨houts, s, hid, hpend, hstep⟩ := runEvent_step_ok rs kw text ds dt rs2 outs h
    refine ⟨⟨?_, ?_⟩, ?_⟩
    · rw [hstep, hpend, ha]
      simp [Nat.add_assoc]
    · rw [hpend]
      show (rs.pending ++ [s]).map Step.id = _
      rw [List.map_append, List.length_append]
      show StepsIds rs.pending ++ [s.id] = _
      rw [hids, hid, ha]
      simp [List.range'_concat]
    · rw [houts]
      intro o ho
      cases ho
  | scenario tags d =>
    rw [runEvent_scenario rs tags d] at h
    injection h with hh
    injection hh with h2 h3
    rw [← h2, ← h3]
    refine ⟨⟨rfl, rfl⟩, ?_⟩
    intro o ho
    rw [List.mem_singleton] at ho
    rw [ho]
    simpa using hids
  | scenarioOutline tags d ex =>
    rw [runEvent_scenarioOutline rs tags d ex] at h
    injection h with hh
    injection hh with h2 h3
    rw [← h2, ← h3]
    refine ⟨⟨rfl, rfl⟩, ?_⟩
    intro o ho
    rw [List.mem_singleton] at ho
    rw [ho]
    simpa using hids
  | scenarioLoop tags d n =>
    rw [runEvent_scenarioLoop rs tags d n] at h
    injection h with hh
    injection hh with h2 h3
    rw [← h2, ← h3]
    refine ⟨⟨rfl, rfl⟩, ?_⟩
    intro o ho
    rw [List.mem_singleton] at ho
    rw [ho]
    simpa using hids
  | background d =>
    simp [Event.isBackground] at hb

/-- In a trace with no background reduction, starting with a fresh step
counter, every produced scenario-like object's step ids are exactly
`1, ..., n`. -/
theorem runTrace_fromOne (tr : List Event) :
    ∀ rs rs2 outs, FromOne rs → (∀ e ∈ tr, e.isBackground = false) →
      runTrace rs tr = .ok (rs2, outs) →
      ∀ o ∈ outs, StepsIds o.steps = List.range' 1 o.steps.length := by
  induction tr with
  | nil =>
    intro rs rs2 outs _ _ h o ho
    simp only [runTrace] at h
    injection h with h1
    injection h1 with h2 h3
    rw [← h3] at ho
    cases ho
  | cons e es ih =>
    intro rs rs2 outs h1 hnb h o ho
    cases he : runEvent rs e with
    | error err =>
      simp only [runTrace, he] at h
      simp at h
    | ok p =>
      obtain ⟨rsm, outs1⟩ := p
      cases ht : runTrace rsm es with
      | error err =>
        simp only [runTrace, he, ht] at h
        simp at h
      | ok q =>
        obtain ⟨rsf, outs2⟩ := q
        simp only [runTrace, he, ht] at h
        obtain ⟨hm, hout1⟩ := runEvent_fromOne rs e rsm outs1 he h1 (hnb e (by simp))
        injection h with hh
        injection hh with hh2 hh3
        rw [← hh3] at ho
        rcases List.mem_append.mp ho with hmem | hmem
        · exact hout1 o hmem
        · exact ih rsm rsf outs2 hm (fun x hx => hnb x (by simp [hx])) ht o hmem

/-! ## Claim C1 -/

/-- **C1, counterexample.**  The claim says the step-id counter resets at
every scenario/background boundary, so the first step of the scenario
following a Background would again have id 1.  Replaying a file with a
one-step Background followed by a one-step Scenario, the background's
step has id 1 but the scenario's first step has id 2: the `background`
reduction does not reset the counter. -/
theorem c1_counterexample :
    (runTrace demoRun
        [Event.step { text := "Given", line := 2 } "bg step" none none,
         Event.background (some { text := "Ctx", line := 1 }),
         Event.step { text := "Given", line := 4 } "scn step" none none,
         Event.scenario [] { text := "Scn", line := 3 }]).map
      (fun p => p.2.map (fun o => StepsIds o.steps)) = .ok [[1], [2]] ∧ (2 : Nat) ≠ 1 := by
  constructor
  · decide
  · decide

/-- **C1** (amended).  Step ids within any one scenario/background form a
consecutive ascending run; the counter is reset to 1 by the Scenario,
Scenario Outline and Scenario Loop reductions, but the Background
reduction leaves the whole transformer state — the step-id counter
included — unchanged, so only in a traversal with no background
reduction is every run exactly `1, ..., n`. -/
theorem c1_step_id_sequences :
    (∀ rs tr rs2 outs, Consecutive rs → runTrace rs tr = .ok (rs2, outs) →
        ∀ o ∈ outs, ∃ a, StepsIds o.steps = List.range' a o.steps.length)
    ∧ (∀ rs tr rs2 outs, FromOne rs → (∀ e ∈ tr, e.isBackground = false) →
        runTrace rs tr = .ok (rs2, outs) →
        ∀ o ∈ outs, StepsIds o.steps = List.range' 1 o.steps.length)
    ∧ (∀ rs tags d rs2 outs, runEvent rs (.scenario tags d) = .ok (rs2, outs) →
        rs2.ts.stepId = 1)
    ∧ (∀ rs tags d ex rs2 outs, runEvent rs (.scenarioOutline tags d ex) = .ok (rs2, outs) →
        rs2.ts.stepId = 1)
    ∧ (∀ rs tags d n rs2 outs, runEvent rs (.scenarioLoop tags d n) = .ok (rs2, outs) →
        rs2.ts.stepId = 1)
    ∧ (∀ rs d rs2 outs, runEvent rs (.background d) = .ok (rs2, outs) → rs2.ts = rs.ts) := by
  refine ⟨?_, ?_, ?_, ?_, ?_, ?_⟩
  · intro rs tr rs2 outs hc h
    exact runTrace_consecutive tr rs rs2 outs hc h
  · intro rs tr rs2 outs h1 hnb h
    exact runTrace_fromOne tr rs rs2 outs h1 hnb h
  · intro rs tags d rs2 outs h
    rw [runEvent_scenario rs tags d] at h
    injection h with hh
    injection hh with h2 h3
    rw [← h2]
  · intro rs tags d ex rs2 outs h
    rw [runEvent_scenarioOutline rs tags d ex] at h
    injection h with hh
    injection hh with h2 h3
    rw [← h2]
  · intro rs tags d n rs2 outs h
    rw [runEvent_scenarioLoop rs tags d n] at h
    injection h with hh
    injection hh with h2 h3
    rw [← h2]
  · intro rs d rs2 outs h
    rw [runEvent_background rs d] at h
    injection h with hh
    injection hh with h2 h3
    rw [← h2]

/-- **C1, witness.**  The demo trace (one `Given` step, then its
scenario) satisfies the amended theorem's hypotheses, and the produced
scenario's step ids are `[1]`. -/
theorem c1_witness : StepsIds demoOut.steps = List.range' 1 demoOut.steps.length :=
  c1_step_id_sequences.2.1 demoRun demoTrace demoFinal [demoOut]
    ⟨rfl, rfl⟩ (by decide) (by decide) demoOut (by decide)

/-! ## Claim C2 -/

/-- **C2, counterexample.**  The claim says a second-level first step of
a scenario must fail with `FirstStepMustUseFirstLevelKeyword`, the
keyword context not leaking across a preceding Scenario Outline.  In the
`outlineTrace`, the `And` step that opens the scenario after the
Scenario Outline does not fail: it resolves to the stale `Given` context
left over from before the outline reduction. -/
theorem c2_counterexample :
    (runTrace demoRun outlineTrace).map
        (fun p => p.1.pending.map (fun s => (s.keyword, s.usedKeyword))) =
      .ok [("Given", "And")] ∧
    runTrace demoRun outlineTrace ≠ .error .firstStepMustUseFirstLevelKeyword := by
  constructor
  · decide
  · decide

/-- **C2** (amended).  A step fails with the bare
`FirstStepMustUseFirstLevelKeyword` exactly when the keyword context is
unset and the stripped literal keyword is not first-level.  With a
context set, a non-first-level keyword (such as `And`/`But`) resolves to
that context and leaves it unchanged, while a first-level keyword
becomes the new context; so a second-level step resolves to the nearest
preceding first-level keyword since the context was last cleared.  The
context is cleared by the plain Scenario reduction only: Scenario
Outline, Scenario Loop and Background reductions all leave it in place,
letting it leak into the next scenario. -/
theorem c2_keyword_context :
    (∀ st kw text ds dt e, RadishGherkinTransformer.step st kw text ds dt = .error e ↔
        (st.stepKeywordCtx = none ∧ pyStripS kw.text ∉ FIRST_LEVEL_STEP_KEYWORDS ∧
          e = .firstStepMustUseFirstLevelKeyword))
    ∧ (∀ st c kw text ds dt, st.stepKeywordCtx = some c →
        pyStripS kw.text ∉ FIRST_LEVEL_STEP_KEYWORDS →
        RadishGherkinTransformer.step st kw text ds dt =
          .ok ({ st with stepId := st.stepId + 1, stepKeywordCtx := some c },
               { id := st.stepId, keyword := c, usedKeyword := pyStripS kw.text,
                 text := text, docString := ds, dataTable := dt,
                 path := st.featurefilePath, line := kw.line }))
    ∧ (∀ st c kw text ds dt, st.stepKeywordCtx = some c →
        pyStripS kw.text ∈ FIRST_LEVEL_STEP_KEYWORDS →
        RadishGherkinTransformer.step st kw text ds dt =
          .ok ({ st with stepId := st.stepId + 1, stepKeywordCtx := some (pyStripS kw.text) },
               { id := st.stepId, keyword := pyStripS kw.text, usedKeyword := pyStripS kw.text,
                 text := text, docString := ds, dataTable := dt,
                 path := st.featurefilePath, line := kw.line }))
    ∧ (∀ rs tags d rs2 outs, runEvent rs (.scenario tags d) = .ok (rs2, outs) →
        rs2.ts.stepKeywordCtx = none)
    ∧ (∀ rs tags d ex rs2 outs, runEvent rs (.scenarioOutline tags d ex) = .ok (rs2, outs) →
        rs2.ts.stepKeywordCtx = rs.ts.stepKeywordCtx)
    ∧ (∀ rs tags d n rs2 outs, runEvent rs (.scenarioLoop tags d n) = .ok (rs2, outs) →
        rs2.ts.stepKeywordCtx = rs.ts.stepKeywordCtx)
    ∧ (∀ rs d rs2 outs, runEvent rs (.background d) = .ok (rs2, outs) →
        rs2.ts.stepKeywordCtx = rs.ts.stepKeywordCtx) := by
  refine ⟨?_, ?_, ?_, ?_, ?_, ?_, ?_⟩
  · intro st kw text ds dt e
    exact step_error_iff st kw text ds dt e
  · intro st c kw text ds dt hctx hk
    rw [step_eq_of_some st kw text ds dt c hctx]
    simp [hk]
  · intro st c kw text ds dt hctx hk
    rw [step_eq_of_some st kw text ds dt c hctx]
    simp [hk]
  · intro rs tags d rs2 outs h
    rw [runEvent_scenario rs tags d] at h
    injection h with hh
    injection hh with h2 h3
    rw [← h2]
  · intro rs tags d ex rs2 outs h
    rw [runEvent_scenarioOutline rs tags d ex] at h
    injection h with hh
    injection hh with h2 h3
    rw [← h2]
  · intro rs tags d n rs2 outs h
    rw [runEvent_scenarioLoop rs tags d n] at h
    injection h with hh
    injection hh with h2 h3
    rw [← h2]
  · intro rs d rs2 outs h
    rw [runEvent_background rs d] at h
    injection h with hh
    injection hh with h2 h3
    rw [← h2]

/-- **C2, witness.**  An `And` step under a `Given` context resolves to
`Given` and leaves the context as `Given`. -/
theorem c2_witness :
    RadishGherkinTransformer.step staleTransformer { text := "And", line := 5 } "x" none none =
      .ok ({ staleTransformer with
               stepId := staleTransformer.stepId + 1,
               stepKeywordCtx := some "Given" },
           { id := 5, keyword := "Given", usedKeyword := "And", text := "x",
             docString := none, dataTable := none, path := "other.feature", line := 5 }) :=
  c2_keyword_context.2.1 staleTransformer "Given" { text := "And", line := 5 } "x" none none
    rfl (by decide)

/-! ## Claim C3 -/

/-- **C3, counterexample.**  The claim says `prepare` clears the
step-keyword context.  Preparing a transformer that carries a `Given`
context from an earlier file leaves that context in place. -/
theorem c3_counterexample :
    (prepare staleTransformer "p.feature" [] 2).stepKeywordCtx = some "Given" ∧
      some "Given" ≠ (none : Option String) := by
  constructor
  · decide
  · decide

/-- **C3** (amended).  `prepare` sets the feature-file path, caches the
split source lines, stores the feature id and resets the step-id and
scenario-id counters to 1 — but it does **not** clear the step-keyword
context, which is carried over from the previous traversal. -/
theorem c3_prepare_state (st : TransformerState) (path : String) (contents : List Char)
    (fid : Nat) :
    (prepare st path contents fid).featurefilePath = path ∧
    (prepare st path contents fid).featurefileContents = splitlinesKeep contents ∧
    (prepare st path contents fid).featureId = fid ∧
    (prepare st path contents fid).stepId = 1 ∧
    (prepare st path contents fid).scenarioId = 1 ∧
    (prepare st path contents fid).stepKeywordCtx = st.stepKeywordCtx :=
  ⟨rfl, rfl, rfl, rfl, rfl, rfl⟩

/-! ## Claim C4 -/

/-- **C4, counterexample.**  The claim says two runs over the identical
tree after identical `prepare` calls produce identical results
regardless of prior state.  A fresh transformer and one holding a stale
`Given` keyword context are prepared identically and replay the same
single `And` step: the first run fails, the second succeeds. -/
theorem c4_counterexample :
    runTrace { ts := prepare freshTransformer "p.feature" [] 1, pending := [] }
        [Event.step { text := "And", line := 2 } "x" none none] ≠
      runTrace { ts := prepare staleTransformer "p.feature" [] 1, pending := [] }
        [Event.step { text := "And", line := 2 } "x" none none] := by
  decide

/-- **C4** (amended).  After identical `prepare` calls, two runs over
the identical tree are structurally identical **provided** the two
transformers carried equal step-keyword contexts into `prepare` (in
particular for two fresh instances); that context is the only state
surviving `prepare`. -/
theorem c4_deterministic (st1 st2 : TransformerState) (path : String) (contents : List Char)
    (fid : Nat) (tr : List Event) (h : st1.stepKeywordCtx = st2.stepKeywordCtx) :
    runTrace { ts := prepare st1 path contents fid, pending := [] } tr =
      runTrace { ts := prepare st2 path contents fid, pending := [] } tr := by
  have hp : prepare st1 path contents fid = prepare st2 path contents fid := by
    unfold prepare
    rw [h]
  rw [hp]

/-- **C4, witness.**  Two fresh transformers differing in their numeric
placeholders replay the demo trace identically. -/
theorem c4_witness :
    runTrace { ts := prepare freshTransformer "p.feature" [] 1, pending := [] } demoTrace =
      runTrace { ts := prepare { freshTransformer with featureId := 9, stepId := 42 }
                   "p.feature" [] 1,
                 pending := [] } demoTrace :=
  c4_deterministic freshTransformer { freshTransformer with featureId := 9, stepId := 42 }
    "p.feature" [] 1 demoTrace rfl

/-! ## Claim C5 -/

/-- **C5.**  Every successful Scenario Outline reduction assigns the
current scenario id to the outline, advances the scenario counter by
exactly `1 + N` where `N` is the number of data rows of its reduced
examples table, and resets the step-id counter to 1. -/
theorem c5_outline_accounting (st : TransformerState) (subtree : List PNode)
    (st2 : TransformerState) (so : ScenarioOutline)
    (h : RadishGherkinTransformer.scenario_outline st subtree = .ok (st2, so)) :
    so.id = st.scenarioId ∧ st2.scenarioId = st.scenarioId + 1 + so.examples.length ∧
      st2.stepId = 1 := by
  simp only [RadishGherkinTransformer.scenario_outline] at h
  split at h
  · split at h
    · injection h with h1
      injection h1 with h2 h3
      rw [← h2, ← h3]
      exact ⟨rfl, rfl, rfl⟩
    · simp at h
  · simp at h

/-- **C5, witness.**  An outline with two example rows reduced at
scenario id 1 takes id 1, moves the counter to 4, and resets the step
counter. -/
theorem c5_witness :
    ({ id := 1, shortDescription := "SO", tags := [], path := "demo.feature", line := 1,
       steps := [], examples := [[("a", "1")], [("a", "2")]] } : ScenarioOutline).id =
        demoState.scenarioId ∧
      ({ featurefilePath := "demo.feature", featurefileContents := [], featureId := 1,
         stepId := 1, scenarioId := 4, stepKeywordCtx := none } : TransformerState).scenarioId =
        demoState.scenarioId + 1 +
          ({ id := 1, shortDescription := "SO", tags := [], path := "demo.feature", line := 1,
             steps := [], examples := [[("a", "1")], [("a", "2")]] } : ScenarioOutline).examples.length ∧
      ({ featurefilePath := "demo.feature", featurefileContents := [], featureId := 1,
         stepId := 1, scenarioId := 4, stepKeywordCtx := none } : TransformerState).stepId = 1 :=
  c5_outline_accounting demoState
    [PNode.tok { text := "SO", line := 1 },
     PNode.examples [[("a", "1")], [("a", "2")]]]
    { featurefilePath := "demo.feature", featurefileContents := [], featureId := 1,
      stepId := 1, scenarioId := 4, stepKeywordCtx := none }
    { id := 1, shortDescription := "SO", tags := [], path := "demo.feature", line := 1,
      steps := [], examples := [[("a", "1")], [("a", "2")]] }
    (by decide)

/-! ## Claim C6 -/

/-- A list of naturals dedups to at most one element exactly when all
its members are equal. -/
theorem dedup_length_le_one_iff (L : List Nat) :
    L.dedup.length ≤ 1 ↔ ∀ x ∈ L, ∀ y ∈ L, x = y := by
  constructor
  · intro h x hx y hy
    have hx2 : x ∈ L.dedup := List.mem_dedup.mpr hx
    have hy2 : y ∈ L.dedup := List.mem_dedup.mpr hy
    rcases hd : L.dedup with _ | ⟨a, _ | ⟨b, t⟩⟩
    · rw [hd] at hx2
      cases hx2
    · rw [hd] at hx2 hy2
      rw [List.mem_singleton] at hx2 hy2
      rw [hx2, hy2]
    · rw [hd] at h
      simp at h
  · intro hall
    by_contra hlen
    push_neg at hlen
    rcases hd : L.dedup with _ | ⟨a, _ | ⟨b, t⟩⟩
    · rw [hd] at hlen
      simp at hlen
    · rw [hd] at hlen
      simp at hlen
    · have ha : a ∈ L := List.mem_dedup.mp (by rw [hd]; exact List.mem_cons_self a _)
      have hb : b ∈ L :=
        List.mem_dedup.mp (by rw [hd]; exact List.mem_cons_of_mem a (List.mem_cons_self b t))
      have hnd : L.dedup.Nodup := List.nodup_dedup L
      rw [hd, List.nodup_cons] at hnd
      exact hnd.1 ((hall a ha b hb) ▸ List.mem_cons_self b t)

/-- The transformers' `len(set of row lengths) > 1` test holds exactly
when two rows of different cell counts exist. -/
theorem table_lengths_iff (t : List (List String)) :
    ((t.map List.length).dedup.length > 1) ↔
      ∃ r1 ∈ t, ∃ r2 ∈ t, r1.length ≠ r2.length := by
  rw [gt_iff_lt, ← not_le, dedup_length_le_one_iff]
  constructor
  · intro h'
    push_neg at h'
    obtain ⟨x, hx, y, hy, hxy⟩ := h'
    obtain ⟨r1, hr1, hx2⟩ := List.mem_map.mp hx
    obtain ⟨r2, hr2, hy2⟩ := List.mem_map.mp hy
    exact ⟨r1, hr1, r2, hr2, by rw [hx2, hy2]; exact hxy⟩
  · rintro ⟨r1, hr1, r2, hr2, hne⟩ hall
    exact hne (hall r1.length (List.mem_map_of_mem _ hr1) r2.length (List.mem_map_of_mem _ hr2))

/-- **C6.**  A Data Table reduction fails with the inconsistent-cell-count
error exactly when two of its rows have different lengths, and otherwise
returns the rows unchanged in order; an Examples Table reduction fails
with its inconsistent-cell-count error under exactly the same condition
(header row included), and otherwise zips each data row with the header
in order. -/
theorem c6_table_cell_counts (t s : List (List String)) :
    (RadishGherkinTransformer.step_data_table t =
        .error .stepDataTableInconsistentCellCount ↔
      ∃ r1 ∈ t, ∃ r2 ∈ t, r1.length ≠ r2.length)
    ∧ ((∀ r1 ∈ t, ∀ r2 ∈ t, r1.length = r2.length) →
        RadishGherkinTransformer.step_data_table t = .ok t)
    ∧ (RadishGherkinTransformer.examples s =
        .error .scenarioOutlineExamplesInconsistentCellCount ↔
      ∃ r1 ∈ s, ∃ r2 ∈ s, r1.length ≠ r2.length)
    ∧ (∀ header rows, s = header :: rows →
        (∀ r1 ∈ s, ∀ r2 ∈ s, r1.length = r2.length) →
        RadishGherkinTransformer.examples s =
          .ok (rows.map (fun row => header.zip row))) := by
  refine ⟨?_, ?_, ?_, ?_⟩
  · unfold RadishGherkinTransformer.step_data_table
    by_cases hgt : ((t.map List.length).dedup).length > 1
    · simp only [if_pos hgt]
      simp [(table_lengths_iff t).mp hgt]
    · simp only [if_neg hgt]
      constructor
      · intro h
        simp at h
      · intro hex
        exact absurd ((table_lengths_iff t).mpr hex) hgt
  · intro hall
    unfold RadishGherkinTransformer.step_data_table
    rw [if_neg]
    intro hgt
    obtain ⟨r1, hr1, r2, hr2, hne⟩ := (table_lengths_iff t).mp hgt
    exact hne (hall r1 hr1 r2 hr2)
  · unfold RadishGherkinTransformer.examples
    by_cases hgt : ((s.map List.length).dedup).length > 1
    · simp only [if_pos hgt]
      simp [(table_lengths_iff s).mp hgt]
    · simp only [if_neg hgt]
      constructor
      · intro h
        cases s with
        | nil => simp at h
        | cons header rows => simp at h
      · intro hex
        exact absurd ((table_lengths_iff s).mpr hex) hgt
  · intro header rows hs hall
    unfold RadishGherkinTransformer.examples
    rw [if_neg, hs]
    intro hgt
    obtain ⟨r1, hr1, r2, hr2, hne⟩ := (table_lengths_iff s).mp hgt
    exact hne (hall r1 hr1 r2 hr2)

/-- **C6, witness.**  A table with row lengths 2 and 1 fails; a
consistent one-column examples table zips into one mapping. -/
theorem c6_witness :
    RadishGherkinTransformer.step_data_table [["a", "b"], ["c"]] =
        .error .stepDataTableInconsistentCellCount ∧
      RadishGherkinTransformer.examples [["n"], ["v"]] = .ok [[("n", "v")]] :=
  ⟨(c6_table_cell_counts [["a", "b"], ["c"]] [["n"], ["v"]]).1.mpr
      ⟨["a", "b"], by decide, ["c"], by decide, by decide⟩,
   (c6_table_cell_counts [["a", "b"], ["c"]] [["n"], ["v"]]).2.2.2 ["n"] [["v"]] rfl
      (by decide)⟩

/-! ## Claim C7 -/

/-- **C7, counterexample.**  The claim says every raised error carries
the file path and the offending source line.  Two transformers on
different files raise the keyword error for steps on different lines,
and the two raised values are one and the same bare constructor: the
`raise ...()` sites pass no arguments, so the error can encode neither
path nor line. -/
theorem c7_counterexample :
    RadishGherkinTransformer.step demoState { text := "And", line := 3 } "x" none none =
        .error .firstStepMustUseFirstLevelKeyword ∧
      RadishGherkinTransformer.step docState { text := "And", line := 9 } "y" none none =
        .error .firstStepMustUseFirstLevelKeyword ∧
      demoState.featurefilePath ≠ docState.featurefilePath ∧
      RadishGherkinTransformer.step demoState { text := "And", line := 3 } "x" none none =
        RadishGherkinTransformer.step docState { text := "And", line := 9 } "y" none none := by
  refine ⟨by decide, by decide, by decide, by decide⟩

/-- **C7** (amended).  Each of the three validation errors is raised as
a bare, argument-less value fully determined by its kind; in particular
the step-keyword error is independent of the file path held in the
builder state. -/
theorem c7_error_payloads :
    (∀ st kw text ds dt e, RadishGherkinTransformer.step st kw text ds dt = .error e →
        e = .firstStepMustUseFirstLevelKeyword)
    ∧ (∀ t e, RadishGherkinTransformer.step_data_table t = .error e →
        e = .stepDataTableInconsistentCellCount)
    ∧ (∀ s e, s ≠ [] → RadishGherkinTransformer.examples s = .error e →
        e = .scenarioOutlineExamplesInconsistentCellCount)
    ∧ (∀ st1 st2 kw text ds dt e, st1.stepKeywordCtx = st2.stepKeywordCtx →
        (RadishGherkinTransformer.step st1 kw text ds dt = .error e ↔
          RadishGherkinTransformer.step st2 kw text ds dt = .error e)) := by
  refine ⟨?_, ?_, ?_, ?_⟩
  · intro st kw text ds dt e h
    exact ((step_error_iff st kw text ds dt e).mp h).2.2
  · intro t e h
    unfold RadishGherkinTransformer.step_data_table at h
    by_cases hgt : ((t.map List.length).dedup).length > 1
    · rw [if_pos hgt] at h
      injection h with h1
      exact h1.symm
    · rw [if_neg hgt] at h
      simp at h
  · intro s e hs h
    unfold RadishGherkinTransformer.examples at h
    by_cases hgt : ((s.map List.length).dedup).length > 1
    · rw [if_pos hgt] at h
      injection h with h1
      exact h1.symm
    · rw [if_neg hgt] at h
      cases s with
      | nil => exact absurd rfl hs
      | cons header rows => simp at h
  · intro st1 st2 kw text ds dt e hctx
    rw [step_error_iff, step_error_iff, hctx]

/-- **C7, witness.**  Two builder states on different files agree on
whether the keyword error fires. -/
theorem c7_witness :
    (RadishGherkinTransformer.step demoState { text := "But", line := 2 } "x" none none =
        .error .firstStepMustUseFirstLevelKeyword) ↔
      (RadishGherkinTransformer.step docState { text := "But", line := 2 } "x" none none =
        .error .firstStepMustUseFirstLevelKeyword) :=
  c7_error_payloads.2.2.2 demoState docState { text := "But", line := 2 } "x" none none
    .firstStepMustUseFirstLevelKeyword rfl

/-! ## Claim C9 -/

/-- **C9.**  The background/scenario split of the feature body's
scenario-like children: an empty sequence yields no background and no
scenarios; a single Background becomes the background with no scenarios;
a single non-Background node is the only scenario with no background; a
leading Background is popped off as the background with the rest as
scenarios; otherwise there is no background and all elements are
scenarios. -/
theorem c9_expand_policy :
    (expand_background_and_scenarios [] = (none, []))
    ∧ (∀ b, expand_background_and_scenarios [FNode.background b] = (some b, []))
    ∧ (∀ x, x.isBackground = false → expand_background_and_scenarios [x] = (none, [x]))
    ∧ (∀ b rest, expand_background_and_scenarios (FNode.background b :: rest) = (some b, rest))
    ∧ (∀ x rest, x.isBackground = false →
        expand_background_and_scenarios (x :: rest) = (none, x :: rest)) := by
  refine ⟨rfl, fun b => rfl, ?_, fun b rest => rfl, ?_⟩
  · intro x hx
    cases x
    · simp [FNode.isBackground] at hx
    · rfl
    · rfl
    · rfl
    · rfl
  · intro x rest hx
    cases x
    · simp [FNode.isBackground] at hx
    · rfl
    · rfl
    · rfl
    · rfl

/-- **C9, witness.**  A single plain scenario yields no background. -/
theorem c9_witness :
    expand_background_and_scenarios
        [FNode.scenario { id := 1, shortDescription := "S", tags := [], path := "p",
                          line := 1, steps := [] }] =
      (none, [FNode.scenario { id := 1, shortDescription := "S", tags := [], path := "p",
                               line := 1, steps := [] }]) :=
  c9_expand_policy.2.2.1
    (FNode.scenario { id := 1, shortDescription := "S", tags := [], path := "p",
                      line := 1, steps := [] }) rfl

/-! ## Claim C10 -/

/-- **C10.**  With the step-keyword context unset, a step reduction
raises `FirstStepMustUseFirstLevelKeyword` for **every** stripped
literal keyword outside Given/When/Then, not only for And/But. -/
theorem c10_first_step_any_keyword (st : TransformerState) (kw : Token) (text : String)
    (ds : Option (List Char)) (dt : Option DataTable)
    (hctx : st.stepKeywordCtx = none)
    (hk : pyStripS kw.text ∉ FIRST_LEVEL_STEP_KEYWORDS) :
    RadishGherkinTransformer.step st kw text ds dt =
      .error .firstStepMustUseFirstLevelKeyword :=
  step_eq_of_none_of_notMem st kw text ds dt hctx hk

/-- **C10, witness.**  The keyword `Around`, which is neither first- nor
second-level, is rejected as the first step. -/
theorem c10_witness :
    RadishGherkinTransformer.step demoState { text := "Around", line := 2 } "x" none none =
      .error .firstStepMustUseFirstLevelKeyword :=
  c10_first_step_any_keyword demoState { text := "Around", line := 2 } "x" none none
    rfl (by decide)

/-! ## Claim C8 -/

theorem commonLead_of_isPrefixOf (m : List Char) :
    ∀ i, m.isPrefixOf i = true → commonLead m i = m := by
  induction m with
  | nil =>
    intro i _
    rfl
  | cons c m2 ih =>
    intro i h
    cases i with
    | nil => simp [List.isPrefixOf] at h
    | cons d i2 =>
      simp only [List.isPrefixOf, Bool.and_eq_true, beq_iff_eq] at h
      obtain ⟨h1, h2⟩ := h
      subst h1
      simp [commonLead, ih i2 h2]

theorem commonLead_of_isPrefixOf_rev (i : List Char) :
    ∀ m, i.isPrefixOf m = true → commonLead m i = i := by
  induction i with
  | nil =>
    intro m _
    cases m <;> rfl
  | cons c i2 ih =>
    intro m h
    cases m with
    | nil => simp [List.isPrefixOf] at h
    | cons d m2 =>
      simp only [List.isPrefixOf, Bool.and_eq_true, beq_iff_eq] at h
      obtain ⟨h1, h2⟩ := h
      subst h1
      simp [commonLead, ih m2 h2]

/-- Every branch of the Python margin loop computes the longest common
leading run. -/
theorem updateMargin_some (m i : List Char) :
    updateMargin (some m) i = some (commonLead m i) := by
  unfold updateMargin
  by_cases h1 : m.isPrefixOf i = true
  · simp [h1, commonLead_of_isPrefixOf m i h1]
  · by_cases h2 : i.isPrefixOf m = true
    · simp [h1, h2, commonLead_of_isPrefixOf_rev i m h2]
    · simp [h1, h2]

theorem foldl_updateMargin_some (L : List (List Char)) :
    ∀ x, L.foldl updateMargin (some x) = some (L.foldl commonLead x) := by
  induction L with
  | nil =>
    intro x
    rfl
  | cons i L2 ih =>
    intro x
    simp only [List.foldl_cons, updateMargin_some]
    exact ih (commonLead x i)

/-- The Python margin loop over a list of indents equals the longest
common leading run of them all. -/
theorem foldl_updateMargin (L : List (List Char)) :
    L.foldl updateMargin none = commonOfAll L := by
  cases L with
  | nil => rfl
  | cons x L2 =>
    show L2.foldl updateMargin (some x) = _
    rw [foldl_updateMargin_some L2 x]
    rfl

theorem any_not_spaceTab (l : List Char) :
    (l.any fun c => !isSpaceTab c) = !l.all isSpaceTab := by
  induction l with
  | nil => rfl
  | cons c l2 ih => simp [List.any_cons, List.all_cons, ih, Bool.not_and]

theorem takeWhile_length_lt (l : List Char) (h : l.all isSpaceTab = false) :
    (l.takeWhile isSpaceTab).length < l.length := by
  induction l with
  | nil => simp at h
  | cons c l2 ih =>
    by_cases hc : isSpaceTab c = true
    · rw [List.all_cons, hc, Bool.true_and] at h
      rw [List.takeWhile_cons, if_pos hc]
      exact Nat.succ_lt_succ (ih h)
    · rw [List.takeWhile_cons, if_neg hc]
      exact Nat.zero_lt_succ _

/-- The indent list the Python code extracts from the blanked text is
the indents of the lines that contain a non-space/tab character. -/
theorem indentOf_blank_eq (lines : List (List Char)) :
    (lines.map (fun l => if wsOnly l then [] else l)).filterMap indentOf =
      (lines.filter (fun l => l.any (fun c => !isSpaceTab c))).map
        (fun l => l.takeWhile isSpaceTab) := by
  induction lines with
  | nil => rfl
  | cons l ls ih =>
    simp only [List.map_cons, List.filterMap_cons, List.filter_cons]
    by_cases hws : wsOnly l = true
    · have hall : l.all isSpaceTab = true := by
        unfold wsOnly at hws
        exact (Bool.and_eq_true _ _ |>.mp hws).2
      have hany : (l.any fun c => !isSpaceTab c) = false := by
        rw [any_not_spaceTab, hall]
        rfl
      rw [hws]
      simp only [if_true, hany]
      have hnone : indentOf ([] : List Char) = none := rfl
      rw [hnone]
      exact ih
    · have hws2 : wsOnly l = false := by
        cases hw : wsOnly l
        · rfl
        · exact absurd hw hws
      rw [hws2]
      simp only [Bool.false_eq_true, if_false]
      by_cases hall : l.all isSpaceTab = true
      · have hl : l = [] := by
          cases l with
          | nil => rfl
          | cons c l2 =>
            exfalso
            apply hws
            unfold wsOnly
            rw [hall]
            rfl
        subst hl
        have hany : (([] : List Char).any fun c => !isSpaceTab c) = false := rfl
        simp only [hany]
        have hnone : indentOf ([] : List Char) = none := rfl
        rw [hnone]
        exact ih
      · have hall2 : l.all isSpaceTab = false := by
          cases hw : l.all isSpaceTab
          · rfl
          · exact absurd hw hall
        have hany : (l.any fun c => !isSpaceTab c) = true := by
          rw [any_not_spaceTab, hall2]
          rfl
        have hsome : indentOf l = some (l.takeWhile isSpaceTab) := by
          unfold indentOf
          rw [if_pos (takeWhile_length_lt l hall2)]
        rw [hsome]
        simp only [hany, if_true]
        rw [List.map_cons]
        rw [ih]

/-- Stripping an empty margin is the identity. -/
theorem map_drop_nil (L : List (List Char)) :
    L.map (fun l => if ([] : List Char).isPrefixOf l then l.drop ([] : List Char).length else l) =
      L := by
  induction L with
  | nil => rfl
  | cons x L2 ih =>
    rw [List.map_cons, ih]
    simp [List.isPrefixOf]

/-- The dedent the transformer performs coincides with the amended
description: blank out whitespace-only lines, then strip the common
indent of the content lines. -/
theorem dedent_eq_amendedDedent (text : List Char) :
    dedent text = amendedDedent text := by
  simp only [dedent, amendedDedent]
  rw [indentOf_blank_eq (splitNl text), foldl_updateMargin]
  cases hM : commonOfAll (((splitNl text).filter
      (fun l => l.any (fun c => !isSpaceTab c))).map (fun l => l.takeWhile isSpaceTab)) with
  | none => rfl
  | some m =>
    cases m with
    | nil =>
      show ['\n'].intercalate ((splitNl text).map (fun l => if wsOnly l then [] else l)) =
        ['\n'].intercalate
          (((splitNl text).map (fun l => if wsOnly l then [] else l)).map
            (fun l => if ([] : List Char).isPrefixOf l then l.drop ([] : List Char).length else l))
      rw [map_drop_nil]
    | cons c m2 => rfl

/-- **C8, counterexample.**  The claim says the doc-string text is the
source slice with exactly the minimum leading whitespace common to all
non-empty lines removed, and nothing else changed.  On a slice whose
middle line is six spaces between two four-space-indented lines, the
code blanks the whitespace-only line entirely (producing two leftover
spaces under the claim's reading, none under the code's). -/
theorem c8_counterexample :
    RadishGherkinTransformer.step_doc_string docState
        [{ text := "q", line := 1 }, { text := "q", line := 3 }] =
      .ok ("a\n\nb\n".data) ∧
    claimedDocString docState [{ text := "q", line := 1 }, { text := "q", line := 3 }] =
      some ("a\n  \nb\n".data) ∧
    "a\n\nb\n".data ≠ "a\n  \nb\n".data := by
  refine ⟨by decide, by decide, by decide⟩

/-- **C8** (amended).  The doc-string reduction returns the cached
source lines from the first token's line through the last token's line
inclusive, concatenated, with lines consisting solely of spaces/tabs
normalized to empty and the longest leading run of spaces/tabs common to
all lines containing any other character removed from every line
carrying it. -/
theorem c8_doc_string (st : TransformerState) (first : Token) (rest : List Token) :
    RadishGherkinTransformer.step_doc_string st (first :: rest) =
      .ok (amendedDedent (((st.featurefileContents.drop (first.line - 1)).take
          (((first :: rest).getLast (List.cons_ne_nil _ _)).line - (first.line - 1))).flatten)) := by
  simp only [RadishGherkinTransformer.step_doc_string]
  rw [dedent_eq_amendedDedent]

end Radish
